import Mathlib

/-!
Verification development for a restaurant-management backend
(order lifecycle, pricing, billing, bill-splitting, reservations).

The definitions below are a shallow embedding of the JavaScript source:
  * `Dish`, `Order`, `OrderItem`, `Bill`, `Reservation` mirror the
    Mongoose models (final revisions).
  * Timestamps are milliseconds as `Int`; money and quantities are `Nat`
    (request-side quantities are `Int` because the source validates
    `quantity <= 0` on raw input).
  * Mongoose `populate("items.dish")` becomes a lookup `findDish` into a
    catalog association list.
  * Controller functions become pure functions returning `Except Err _`;
    `res.status(n); throw new Error(msg)` becomes `.error ⟨n, msg⟩`.
  * `splitBill` persists each sub-bill inside its processing loop, so its
    embedding returns the list of bills saved so far together with the
    final outcome, making partial persistence observable.
-/

namespace RMS

/-- Per-item kitchen status, from `orderItemSchema.status` enum
(models/Order.js, final revision). -/
inductive ItemStatus
  | pending
  | accepted
  | declined
  | preparing
  | ready
  | cancelled
  | cancellationRequested
deriving DecidableEq, Repr

/-- Whole-order status, from `orderSchema.orderStatus` enum. -/
inductive OrderStatus
  | pending
  | preparing
  | ready
  | completed
  | cancelled
deriving DecidableEq, Repr

/-- User roles, from `userSchema.role`. -/
inductive Role
  | admin
  | chef
  | waiter
  | customer
deriving DecidableEq, Repr

/-- The authenticated requester (`req.user`). -/
structure AuthUser where
  id : Nat
  role : Role
deriving DecidableEq, Repr

/-- A dish document (models/Dish.js, final revision). `specialPrice`,
`specialStartDate`, `specialEndDate` are optional fields; `none` models an
absent (`undefined`) field. Times are in milliseconds. -/
structure Dish where
  id : Nat
  price : Nat
  isAvailable : Bool
  isSpecial : Bool
  specialPrice : Option Nat
  specialStartDate : Option Int
  specialEndDate : Option Int
deriving DecidableEq, Repr

/-- Catalog of dishes; `findDish` embeds `Dish.findById`. -/
def findDish (catalog : List Dish) (dishId : Nat) : Option Dish :=
  catalog.find? (fun d => d.id == dishId)

/-- The special-offer guard from `generateBill` and `splitBill`
(billController, final revision):
`dish.isSpecial && dish.specialPrice && dish.specialStartDate &&
dish.specialEndDate && specialStart <= today && today <= specialEnd`.
A numeric `specialPrice` equal to `0` is falsy in the source, hence the
`p != 0` test; date fields are objects and are truthy whenever present. -/
def specialActive (d : Dish) (t : Int) : Bool :=
  d.isSpecial &&
  (match d.specialPrice with
   | some p => p != 0
   | none => false) &&
  (match d.specialStartDate, d.specialEndDate with
   | some s, some e => decide (s ≤ t) && decide (t ≤ e)
   | _, _ => false)

/-- The per-item price computation (`priceToUse`) from the billing code:
the special price while the offer window is active, the regular price
otherwise. -/
def priceToUse (d : Dish) (t : Int) : Nat :=
  if specialActive d t then d.specialPrice.getD d.price else d.price

/-- Pricing Resolver exactly as the specification and the claim word it:
returns `dish.specialPrice` iff `isSpecial` is true AND `specialPrice` and
both range bounds are set AND the time falls within the inclusive window;
otherwise `dish.price`. "Set" is mere presence of the optional field — in
particular a special price of 0 counts as set (the Dish schema allows
`specialPrice: 0` via `min: 0`). -/
def resolvePrice (d : Dish) (t : Int) : Nat :=
  match d.specialPrice, d.specialStartDate, d.specialEndDate with
  | some p, some s, some e =>
      if d.isSpecial ∧ s ≤ t ∧ t ≤ e then p else d.price
  | _, _, _ => d.price

/-- The Pricing Resolver amended to what the billing code guards: the
special price applies only when `specialPrice` is set AND non-zero. The
source tests `dish.specialPrice &&` (JS truthiness), under which a
set-but-zero special price never applies, diverging from `resolvePrice`
exactly at dishes with `specialPrice = some 0` and an active window. -/
def resolvePriceNonzero (d : Dish) (t : Int) : Nat :=
  match d.specialPrice, d.specialStartDate, d.specialEndDate with
  | some p, some s, some e =>
      if d.isSpecial ∧ p ≠ 0 ∧ s ≤ t ∧ t ≤ e then p else d.price
  | _, _, _ => d.price

/-- The billing code computes exactly the amended (non-zero) resolver. -/
theorem priceToUse_eq_resolvePriceNonzero (d : Dish) (t : Int) :
    priceToUse d t = resolvePriceNonzero d t := by
  rcases d with ⟨did, price, avail, isSp, spPrice, spStart, spEnd⟩
  cases spPrice with
  | none =>
      cases spStart <;> cases spEnd <;>
        simp [priceToUse, resolvePriceNonzero, specialActive]
  | some p =>
      cases spStart with
      | none =>
          cases spEnd <;>
            simp [priceToUse, resolvePriceNonzero, specialActive]
      | some s =>
          cases spEnd with
          | none => simp [priceToUse, resolvePriceNonzero, specialActive]
          | some e =>
              cases isSp with
              | false => simp [priceToUse, resolvePriceNonzero, specialActive]
              | true =>
                  by_cases h1 : p = 0 <;> by_cases h2 : s ≤ t <;>
                    by_cases h3 : t ≤ e <;>
                      simp [priceToUse, resolvePriceNonzero, specialActive,
                        h1, h2, h3]

/-- One line of an order as submitted to `createOrder` (`req.body.items`
elements: dish id, quantity, notes). The raw quantity is `Int` because the
controller validates `item.quantity <= 0` on the raw value. -/
structure OrderLine where
  dishId : Nat
  quantity : Int
  notes : String
deriving DecidableEq, Repr

/-- An order item sub-document (orderItemSchema, final revision): dish
reference, quantity, kitchen status and notes. `itemId` models the Mongoose
subdocument `_id` used by `order.items.id(itemId)`. -/
structure OrderItem where
  itemId : Nat
  dishId : Nat
  quantity : Nat
  status : ItemStatus
  notes : String
deriving DecidableEq, Repr

/-- An order document (orderSchema, final revision). -/
structure Order where
  tableNumber : String
  waiterId : Nat
  items : List OrderItem
  orderStatus : OrderStatus
  totalAmount : Nat
  customerName : String
  customerPhoneNumber : String
  isBilled : Bool
deriving DecidableEq, Repr

/-- The item filter inside the pre-save hook (models/Order.js, final
revision): `item.status === "accepted" && item.status !== "cancelled" &&
item.status !== "cancellation_requested"` (the last two conjuncts are
redundant given the first, and are kept as written). -/
def hookCountsItem (it : OrderItem) : Bool :=
  it.status == ItemStatus.accepted &&
  it.status != ItemStatus.cancelled &&
  it.status != ItemStatus.cancellationRequested

/-- Total recomputation from the `orderSchema.pre("save")` hook: populate
each item dish and sum `dish.price * item.quantity` over counted items; an
item whose dish cannot be resolved is skipped with a warning. Note the hook
reads the dish current catalog price — the final order-item schema stores
no price snapshot. -/
def recomputeTotal (catalog : List Dish) : List OrderItem → Nat
  | [] => 0
  | it :: rest =>
      (if hookCountsItem it then
        match findDish catalog it.dishId with
        | some d => d.price * it.quantity
        | none => 0
      else 0) + recomputeTotal catalog rest

/-- Saving an order whose `items` array was modified (or a new order) runs
the pre-save hook, recomputing `totalAmount`. -/
def saveOrder (catalog : List Dish) (o : Order) : Order :=
  { o with totalAmount := recomputeTotal catalog o.items }

/-- An HTTP-style error: `res.status(n); throw new Error(msg)`. -/
structure Err where
  status : Nat
  msg : String
deriving DecidableEq, Repr

/-- Boolean test for a failed `Except` result. -/
def isErr : Except Err α → Bool
  | .error _ => true
  | .ok _ => false

/-- Item validation loop of `createOrder` (orderController, final
revision): for each line, `Dish.findById` must succeed (else 404) and the
quantity must be positive (else 400). The final revision performs no
`isAvailable` check. Item ids are assigned positionally. -/
def buildOrderItems (catalog : List Dish) : List OrderLine → Nat →
    Except Err (List OrderItem)
  | [], _ => .ok []
  | l :: ls, idx =>
      match findDish catalog l.dishId with
      | none => .error ⟨404, "Dish not found."⟩
      | some _ =>
          if l.quantity ≤ 0 then
            .error ⟨400, "Quantity must be at least 1."⟩
          else
            match buildOrderItems catalog ls (idx + 1) with
            | .error e => .error e
            | .ok rest =>
                .ok ({ itemId := idx, dishId := l.dishId,
                       quantity := l.quantity.toNat, status := .pending,
                       notes := l.notes } :: rest)

/-- The `createOrder` controller (final revision): requires table number,
customer name/phone and a non-empty item list; validates each line via
`buildOrderItems`; creates the order with every item `pending`, order
status `pending`, not billed; `Order.create` runs the pre-save hook. -/
def createOrder (catalog : List Dish) (tableNumber customerName
    customerPhoneNumber : String) (lines : List OrderLine)
    (waiterId : Nat) : Except Err Order :=
  if tableNumber = "" ∨ customerName = "" ∨ customerPhoneNumber = "" ∨
      lines = [] then
    .error ⟨400, "Please provide table number, customer details, and at least one item."⟩
  else
    match buildOrderItems catalog lines 0 with
    | .error e => .error e
    | .ok items =>
        .ok (saveOrder catalog
          { tableNumber := tableNumber, waiterId := waiterId,
            items := items, orderStatus := .pending, totalAmount := 0,
            customerName := customerName,
            customerPhoneNumber := customerPhoneNumber,
            isBilled := false })

/-- Embeds `order.items.id(itemId)`. -/
def findItem (o : Order) (itemId : Nat) : Option OrderItem :=
  o.items.find? (fun it => it.itemId == itemId)

/-- Replace the status of the item with the given id (in-place subdocument
mutation `item.status = ...`). -/
def setItemStatus (items : List OrderItem) (itemId : Nat)
    (st : ItemStatus) : List OrderItem :=
  items.map (fun it =>
    if it.itemId == itemId then { it with status := st } else it)

/-- The target statuses the chef endpoint accepts (`validItemStatuses`). -/
def validItemStatuses : List ItemStatus :=
  [.accepted, .declined, .preparing, .ready, .cancelled,
   .cancellationRequested]

/-- The aggregate-status derivation of `updateOrderItemStatus`, written
exactly as the source loop computes its three flags over the updated item
array: `allItemsProcessed` is falsified by a `pending` item;
`anyItemsAccepted` is set by an item whose status is exactly `accepted`;
`allItemsReady` is falsified by `orderItem.status === "accepted" &&
orderItem.status !== "ready"` (the second conjunct is vacuously true when
the first holds — kept as written). -/
def deriveOrderStatus (items : List OrderItem) (old : OrderStatus) :
    OrderStatus :=
  let allItemsProcessed :=
    items.all (fun it => !(it.status == ItemStatus.pending))
  let anyItemsAccepted :=
    items.any (fun it => it.status == ItemStatus.accepted)
  let allItemsReady :=
    items.all (fun it => !(it.status == ItemStatus.accepted &&
      it.status != ItemStatus.ready))
  let st1 := if allItemsProcessed && anyItemsAccepted then
    OrderStatus.preparing else old
  if allItemsReady && anyItemsAccepted then OrderStatus.ready else st1

/-- The `updateOrderItemStatus` controller (final revision): look up the
item (404), validate the target status (400), refuse when the order is
completed, cancelled or billed (400); then set the item status, re-derive
the aggregate status and save (recomputing the total). There is no check
of the item current status. -/
def updateOrderItemStatus (catalog : List Dish) (o : Order) (itemId : Nat)
    (status : ItemStatus) : Except Err Order :=
  match findItem o itemId with
  | none => .error ⟨404, "Order item not found"⟩
  | some _ =>
      if ¬ validItemStatuses.contains status then
        .error ⟨400, "Invalid item status provided"⟩
      else if o.orderStatus = .completed ∨ o.orderStatus = .cancelled ∨
          o.isBilled then
        .error ⟨400, "Cannot change item status for this order."⟩
      else
        .ok (saveOrder catalog
          { o with items := setItemStatus o.items itemId status,
                   orderStatus :=
                     deriveOrderStatus (setItemStatus o.items itemId status)
                       o.orderStatus })

/-- The `cancelOrder` controller (final revision): refuse when billed or
completed; waiters may only cancel their own orders; set the order
cancelled and every non-declined item cancelled; save recomputes the
total. -/
def cancelOrder (catalog : List Dish) (u : AuthUser) (o : Order) :
    Except Err Order :=
  if o.isBilled ∨ o.orderStatus = .completed then
    .error ⟨400, "Cannot cancel an order that is already billed or completed."⟩
  else if u.role = .waiter ∧ o.waiterId ≠ u.id then
    .error ⟨403, "Not authorized to cancel this order."⟩
  else
    .ok (saveOrder catalog
      { o with orderStatus := .cancelled,
               items := o.items.map (fun it =>
                 if it.status != ItemStatus.declined then
                   { it with status := .cancelled }
                 else it) })

/-- The `requestItemCancellation` controller (final revision): look up the
item (404); refuse when the order is completed or billed, or the item is
already `cancelled` or `ready` (400); waiters only for their own orders
(403); set the item to `cancellation_requested` and save. Note a
`declined` item passes the guard. -/
def requestItemCancellation (catalog : List Dish) (u : AuthUser)
    (o : Order) (itemId : Nat) : Except Err Order :=
  match findItem o itemId with
  | none => .error ⟨404, "Order item not found"⟩
  | some item =>
      if o.orderStatus = .completed ∨ o.isBilled = true ∨
          item.status = .cancelled ∨ item.status = .ready then
        .error ⟨400, "Cannot request cancellation for this item."⟩
      else if u.role = .waiter ∧ o.waiterId ≠ u.id then
        .error ⟨403, "Not authorized to request cancellation for items in this order."⟩
      else
        .ok (saveOrder catalog
          { o with items :=
              setItemStatus o.items itemId ItemStatus.cancellationRequested })

/-- The `manageItemCancellation` controller (final revision): the item must
currently be `cancellation_requested` (400 otherwise); action `approve`
sets it `cancelled`, action `reject` sets it `accepted` (the source
comments that it assumes the item was accepted before the request), any
other action is a 400; outbound notifications are fire-and-forget and not
modelled. -/
def manageItemCancellation (catalog : List Dish) (o : Order)
    (itemId : Nat) (action : String) : Except Err Order :=
  match findItem o itemId with
  | none => .error ⟨404, "Order item not found"⟩
  | some item =>
      if item.status ≠ ItemStatus.cancellationRequested then
        .error ⟨400, "Item is not in cancellation_requested status."⟩
      else if action = "approve" then
        .ok (saveOrder catalog
          { o with items := setItemStatus o.items itemId .cancelled })
      else if action = "reject" then
        .ok (saveOrder catalog
          { o with items := setItemStatus o.items itemId .accepted })
      else
        .error ⟨400, "Invalid action."⟩

/-- A bill line (billItemSchema): dish reference, quantity, price at
billing time. -/
structure BillItem where
  dishId : Nat
  quantity : Nat
  price : Nat
deriving DecidableEq, Repr

/-- A bill document (models/Bill.js, final revision). The split-group
identifier (a uuid in the source) is modelled as a `Nat`. -/
structure Bill where
  billedBy : Nat
  items : List BillItem
  totalAmount : Nat
  isSplitBill : Bool
  splitGroupIdentifier : Option Nat
  originalOrderTotal : Nat
  customerName : String
deriving DecidableEq, Repr

/-- The item loop of `generateBill` (billController, final revision): every
item must have a populated dish (500 otherwise); items whose status is
exactly `accepted` are billed at `priceToUse` evaluated at the bill time
`t`. -/
def billAcceptedItems (catalog : List Dish) (t : Int) :
    List OrderItem → Except Err (List BillItem)
  | [] => .ok []
  | it :: rest =>
      match findDish catalog it.dishId with
      | none => .error ⟨500, "Dish not populated for item."⟩
      | some d =>
          if it.status = ItemStatus.accepted then
            match billAcceptedItems catalog t rest with
            | .error e => .error e
            | .ok tail =>
                .ok ({ dishId := d.id, quantity := it.quantity,
                       price := priceToUse d t } :: tail)
          else
            billAcceptedItems catalog t rest

/-- Sum of `quantity * price` over bill lines, as accumulated by
`totalAmount += item.quantity * priceToUse`. -/
def billItemsTotal : List BillItem → Nat
  | [] => 0
  | bi :: rest => bi.quantity * bi.price + billItemsTotal rest

/-- The `generateBill` controller (final revision): refuse when the order
is already billed (the first check after the lookup — nothing is persisted
before it); bill the accepted items at time `t`; refuse when no item is
billable; otherwise persist the bill and mark the order billed and
completed. The order save does not modify `items`, so the pre-save hook
leaves `totalAmount` unchanged. -/
def generateBill (catalog : List Dish) (t : Int) (o : Order)
    (userId : Nat) : Except Err (Bill × Order) :=
  if o.isBilled then
    .error ⟨400, "This order has already been billed"⟩
  else
    match billAcceptedItems catalog t o.items with
    | .error e => .error e
    | .ok billedItems =>
        if billedItems = [] then
          .error ⟨400, "No accepted dishes in this order to bill."⟩
        else
          .ok ({ billedBy := userId, items := billedItems,
                 totalAmount := billItemsTotal billedItems,
                 isSplitBill := false, splitGroupIdentifier := none,
                 originalOrderTotal := o.totalAmount,
                 customerName := o.customerName },
               { o with isBilled := true,
                        orderStatus :=
                          if o.orderStatus ≠ OrderStatus.completed then
                            .completed
                          else o.orderStatus })

/-- One item of one split portion (`splits[i].items[j]`): a dish id and a
raw quantity (validated `> 0` by the controller). -/
structure SplitItem where
  dishId : Nat
  quantity : Int
deriving DecidableEq, Repr

/-- One split portion: optional customer name plus its items. -/
structure SplitPortion where
  customerName : Option String
  items : List SplitItem
deriving DecidableEq, Repr

/-- The availability map of `splitBill`: dish id → (populated dish,
remaining billable quantity), as a JS `Map` in insertion order. -/
abbrev AvailMap := List (Nat × Dish × Nat)

/-- First-occurrence lookup in the availability map (`Map.get`). -/
def lookupAvail (m : AvailMap) (dishId : Nat) : Option (Dish × Nat) :=
  (m.find? (fun e => e.1 == dishId)).map (fun e => e.2)

/-- Insert-or-accumulate used while building the availability map:
`map.set(id, { dish, quantity: (map.get(id)?.quantity || 0) + q })`. The
stored dish document is replaced by the latest populated one. -/
def availInsert (m : AvailMap) (d : Dish) (q : Nat) : AvailMap :=
  match m with
  | [] => [(d.id, d, q)]
  | (k, d0, q0) :: rest =>
      if k == d.id then (k, d, q0 + q) :: rest
      else (k, d0, q0) :: availInsert rest d q

/-- Replace the remaining quantity of the (first) entry for a dish id
(`map.set(id, info)` after decrementing). -/
def availUpdate (m : AvailMap) (dishId : Nat) (q : Nat) : AvailMap :=
  match m with
  | [] => []
  | (k, d0, q0) :: rest =>
      if k == dishId then (k, d0, q) :: rest
      else (k, d0, q0) :: availUpdate rest dishId q

/-- Remove the (first) entry for a dish id (`map.delete(id)`). -/
def availDelete (m : AvailMap) (dishId : Nat) : AvailMap :=
  match m with
  | [] => []
  | (k, d0, q0) :: rest =>
      if k == dishId then rest
      else (k, d0, q0) :: availDelete rest dishId

/-- One step of building the availability map (`splitBill`
`originalOrder.items.forEach`): an item whose status is exactly `accepted`
and whose dish populated successfully accumulates its quantity under its
dish id; other items are skipped. -/
def acceptedMapStep (catalog : List Dish) (m : AvailMap)
    (it : OrderItem) : AvailMap :=
  match findDish catalog it.dishId with
  | some d =>
      if it.status = ItemStatus.accepted then availInsert m d it.quantity
      else m
  | none => m

/-- The availability map built from the order items, first-to-last as the
source `forEach` runs. -/
def buildAcceptedMapFold (catalog : List Dish) (items : List OrderItem) :
    AvailMap :=
  items.foldl (acceptedMapStep catalog) []

/-- The inner loop of `splitBill` over one portion items, carrying the
availability map, the in-portion duplicate tracker, the accumulated bill
lines and amount. Guards in source order: positive quantity (400),
duplicate dish within the portion (400), membership in the availability
map (400), sufficient remaining quantity (400). The price is `priceToUse`
at the split time `t`; the map entry is decremented, and deleted when it
reaches zero. -/
def processSplitItems (t : Int) : List SplitItem → AvailMap → List Nat →
    Except Err (List BillItem × Nat × AvailMap)
  | [], m, _ => .ok ([], 0, m)
  | si :: rest, m, tracker =>
      if si.quantity ≤ 0 then
        .error ⟨400, "Invalid item details in split portion."⟩
      else if tracker.contains si.dishId then
        .error ⟨400, "Duplicate dish found within split portion."⟩
      else
        match lookupAvail m si.dishId with
        | none =>
            .error ⟨400, "Dish is not part of the original accepted order items."⟩
        | some (d, avail) =>
            if (avail : Int) < si.quantity then
              .error ⟨400, "Quantity exceeds available quantity in original order."⟩
            else
              let q := si.quantity.toNat
              let price := priceToUse d t
              let m1 := if avail - q = 0 then availDelete m si.dishId
                        else availUpdate m si.dishId (avail - q)
              match processSplitItems t rest m1 (si.dishId :: tracker) with
              | .error e => .error e
              | .ok (tailItems, tailAmt, mFinal) =>
                  .ok ({ dishId := d.id, quantity := q, price := price }
                         :: tailItems,
                       q * price + tailAmt, mFinal)

/-- The outer loop of `splitBill` over the portions. Each successfully
processed portion immediately persists its sub-bill (`newBill.save()`),
so the first component of the result is the list of bills already saved
when the loop stops — also when a later failure aborts the operation. -/
def processSplits (t : Int) (origTotal : Nat) (phone : String)
    (gid : Nat) (userId : Nat) :
    List SplitPortion → AvailMap → Nat → List Bill × Except Err AvailMap
  | [], m, _ => ([], .ok m)
  | sp :: rest, m, idx =>
      if sp.items = [] then
        ([], .error ⟨400, "Split portion must contain at least one item."⟩)
      else
        match processSplitItems t sp.items m [] with
        | .error e => ([], .error e)
        | .ok (billItems, amt, m1) =>
            let bill : Bill :=
              { billedBy := userId, items := billItems, totalAmount := amt,
                isSplitBill := true, splitGroupIdentifier := some gid,
                originalOrderTotal := origTotal,
                customerName :=
                  sp.customerName.getD ("Split Customer " ++
                    toString (idx + 1)) }
            let (bills, res) :=
              processSplits t origTotal phone gid userId rest m1 (idx + 1)
            (bill :: bills, res)

/-- The `splitBill` controller (final revision). Top-level guards: at least
two portions (400), order found (handled by the caller), order not already
billed (400), at least one accepted item (400). Then the portions are
processed — persisting each sub-bill as it is created — and only after the
loop does the code check that the availability map was fully drained; a
leftover fails the request with a 400 after the sub-bills were already
saved. On success the order is marked billed and completed. The result
pairs the persisted sub-bills with the outcome. -/
def splitBill (catalog : List Dish) (t : Int) (o : Order)
    (splits : List SplitPortion) (gid : Nat) (userId : Nat) :
    List Bill × Except Err Order :=
  if splits.length < 2 then
    ([], .error ⟨400, "Splits array is required and must contain at least 2 split portions."⟩)
  else if o.isBilled then
    ([], .error ⟨400, "This order has already been billed and cannot be split."⟩)
  else
    let m := buildAcceptedMapFold catalog o.items
    if m = [] then
      ([], .error ⟨400, "No accepted items in the original order to split."⟩)
    else
      let (bills, res) :=
        processSplits t o.totalAmount o.customerPhoneNumber gid userId
          splits m 0
      match res with
      | .error e => (bills, .error e)
      | .ok mFinal =>
          if mFinal ≠ [] then
            (bills, .error ⟨400, "Not all original accepted order items were allocated in the splits."⟩)
          else
            (bills, .ok { o with isBilled := true,
                                 orderStatus := .completed })

/-- Reservation status (models/Reservation.js). -/
inductive ResStatus
  | pending
  | confirmed
  | seated
  | cancelled
  | completed
deriving DecidableEq, Repr

/-- A reservation document (models/Reservation.js). -/
structure Reservation where
  tableNumber : String
  customerName : String
  customerPhoneNumber : String
  numberOfGuests : Int
  reservationTime : Int
  status : ResStatus
  isCustomerReservation : Bool
  reservedBy : Nat
  notes : String
deriving DecidableEq, Repr

/-- The hardcoded table inventory (`ALL_TABLE_NUMBERS`). -/
def allTableNumbers : List String :=
  ["T-1", "T-2", "T-3", "T-4", "T-5", "T-6", "T-7", "T-8", "T-9", "T-10"]

/-- Two hours in milliseconds (`2 * 60 * 60 * 1000`). -/
def twoHoursMs : Int := 7200000

/-- Statuses counted as active in the conflict query
(`status: { $in: ["pending", "confirmed", "seated"] }`). -/
def activeResStatus : ResStatus → Bool
  | .pending => true
  | .confirmed => true
  | .seated => true
  | _ => false

/-- The conflict query of `createReservation` and
`createCustomerReservation`: some reservation for the same table with an
active status whose time lies in the inclusive window
`[t - 2h, t + 2h]` around the requested time. -/
def conflictExists (db : List Reservation) (table : String) (t : Int) :
    Bool :=
  db.any (fun r =>
    r.tableNumber == table &&
    decide (t - twoHoursMs ≤ r.reservationTime) &&
    decide (r.reservationTime ≤ t + twoHoursMs) &&
    activeResStatus r.status)

/-- A reservation creation request (`req.body`). -/
structure ReservationRequest where
  tableNumber : String
  customerName : String
  customerPhoneNumber : String
  numberOfGuests : Int
  reservationTime : Int
  notes : String
deriving DecidableEq, Repr

/-- The staff `createReservation` controller (reservationController):
missing-field check (JS truthiness: empty strings, zero guests and the
epoch instant 0 are all falsy), table must be in the fixed inventory,
guests positive, then the ±2-hour conflict check — a conflict is a 409.
Staff reservations are created `confirmed`. -/
def createReservation (db : List Reservation) (req : ReservationRequest)
    (userId : Nat) : Except Err Reservation :=
  if req.tableNumber = "" ∨ req.customerName = "" ∨
      req.customerPhoneNumber = "" ∨ req.numberOfGuests = 0 ∨
      req.reservationTime = 0 then
    .error ⟨400, "Please fill all required reservation fields."⟩
  else if ¬ allTableNumbers.contains req.tableNumber then
    .error ⟨400, "Invalid table number."⟩
  else if req.numberOfGuests < 1 then
    .error ⟨400, "Number of guests must be a positive number."⟩
  else if conflictExists db req.tableNumber req.reservationTime then
    .error ⟨409, "Table is already reserved or unavailable around this time."⟩
  else
    .ok { tableNumber := req.tableNumber,
          customerName := req.customerName,
          customerPhoneNumber := req.customerPhoneNumber,
          numberOfGuests := req.numberOfGuests,
          reservationTime := req.reservationTime,
          status := .confirmed, isCustomerReservation := false,
          reservedBy := userId, notes := req.notes }

/-- The customer `createCustomerReservation` controller: identical
validation and conflict window, but the reservation is created `pending`
and flagged as a customer reservation. -/
def createCustomerReservation (db : List Reservation)
    (req : ReservationRequest) (userId : Nat) : Except Err Reservation :=
  if req.tableNumber = "" ∨ req.customerName = "" ∨
      req.customerPhoneNumber = "" ∨ req.numberOfGuests = 0 ∨
      req.reservationTime = 0 then
    .error ⟨400, "Please fill all required reservation fields."⟩
  else if ¬ allTableNumbers.contains req.tableNumber then
    .error ⟨400, "Invalid table number."⟩
  else if req.numberOfGuests < 1 then
    .error ⟨400, "Number of guests must be a positive number."⟩
  else if conflictExists db req.tableNumber req.reservationTime then
    .error ⟨409, "Table is already reserved or unavailable around this time."⟩
  else
    .ok { tableNumber := req.tableNumber,
          customerName := req.customerName,
          customerPhoneNumber := req.customerPhoneNumber,
          numberOfGuests := req.numberOfGuests,
          reservationTime := req.reservationTime,
          status := .pending, isCustomerReservation := true,
          reservedBy := userId, notes := req.notes }

/-! ### Shared helper lemmas and sample fixtures -/

/-- Inversion for the accepted-item billing loop: a successful run returns
exactly the accepted items, each billed at the amended (non-zero)
resolver price at the bill time. -/
def acceptedBillLines (catalog : List Dish) (t : Int) :
    List OrderItem → List BillItem
  | [] => []
  | it :: rest =>
      match findDish catalog it.dishId with
      | some d =>
          if it.status = ItemStatus.accepted then
            { dishId := d.id, quantity := it.quantity,
              price := resolvePriceNonzero d t } ::
              acceptedBillLines catalog t rest
          else acceptedBillLines catalog t rest
      | none => acceptedBillLines catalog t rest

theorem billAcceptedItems_ok_eq (catalog : List Dish) (t : Int) :
    ∀ (items : List OrderItem) (bis : List BillItem),
    billAcceptedItems catalog t items = .ok bis →
    bis = acceptedBillLines catalog t items := by
  intro items
  induction items with
  | nil =>
      intro bis h
      unfold billAcceptedItems at h
      injection h with h
      simp [acceptedBillLines, h.symm]
  | cons it rest ih =>
      intro bis h
      unfold billAcceptedItems at h
      unfold acceptedBillLines
      cases hd : findDish catalog it.dishId with
      | none => rw [hd] at h; exact absurd h (by simp)
      | some d =>
          rw [hd] at h
          by_cases hst : it.status = ItemStatus.accepted
          · simp only [hst, if_true] at h ⊢
            cases hrest : billAcceptedItems catalog t rest with
            | error e => rw [hrest] at h; exact absurd h (by simp)
            | ok tail =>
                rw [hrest] at h
                injection h with h
                rw [← h, ih tail hrest, priceToUse_eq_resolvePriceNonzero]
          · simp only [hst, if_false] at h ⊢
            exact ih bis h

/-- Full inversion of a successful `generateBill`. -/
theorem generateBill_ok_inv (catalog : List Dish) (t : Int) (o : Order)
    (userId : Nat) (bill : Bill) (o' : Order)
    (h : generateBill catalog t o userId = .ok (bill, o')) :
    o.isBilled = false ∧
    bill.items = acceptedBillLines catalog t o.items ∧
    bill.totalAmount = billItemsTotal bill.items ∧
    o'.isBilled = true ∧ o'.orderStatus = OrderStatus.completed ∧
    o'.items = o.items ∧ o'.totalAmount = o.totalAmount := by
  by_cases hb : o.isBilled
  · simp [generateBill, hb] at h
  · unfold generateBill at h
    rw [if_neg hb] at h
    cases hbi : billAcceptedItems catalog t o.items with
    | error e => rw [hbi] at h; exact absurd h (by simp)
    | ok bis =>
        rw [hbi] at h
        dsimp only at h
        by_cases hnil : bis = []
        · rw [if_pos hnil] at h; exact absurd h (by simp)
        · rw [if_neg hnil] at h
          injection h with h
          have hbill : bill =
              { billedBy := userId, items := bis,
                totalAmount := billItemsTotal bis, isSplitBill := false,
                splitGroupIdentifier := none,
                originalOrderTotal := o.totalAmount,
                customerName := o.customerName } :=
            (congrArg Prod.fst h).symm
          have ho' : o' =
              { o with isBilled := true,
                       orderStatus :=
                         if o.orderStatus ≠ OrderStatus.completed then
                           .completed
                         else o.orderStatus } :=
            (congrArg Prod.snd h).symm
          subst hbill
          refine ⟨by simpa using hb,
            billAcceptedItems_ok_eq catalog t o.items bis hbi, rfl, ?_⟩
          subst ho'
          by_cases hc : o.orderStatus = OrderStatus.completed <;>
            simp [hc]

/-- Sample dish: regular price 10, available, no special offer. -/
def dishA : Dish :=
  { id := 1, price := 10, isAvailable := true, isSpecial := false,
    specialPrice := none, specialStartDate := none,
    specialEndDate := none }

/-- Sample dish: regular price 8, special price 5 on the inclusive window
[1000, 2000] (milliseconds). -/
def dishB : Dish :=
  { id := 2, price := 8, isAvailable := true, isSpecial := true,
    specialPrice := some 5, specialStartDate := some 1000,
    specialEndDate := some 2000 }

/-- Sample dish: price 7 but currently unavailable. -/
def dishC : Dish :=
  { id := 3, price := 7, isAvailable := false, isSpecial := false,
    specialPrice := none, specialStartDate := none,
    specialEndDate := none }

/-- Sample catalog. -/
def sampleCatalog : List Dish := [dishA, dishB, dishC]

/-- Sample order: one accepted line of 2 × dishA and one accepted line of
1 × dishB, unbilled, aggregate status `preparing`, total as the pre-save
hook computes it. -/
def sampleOrder : Order :=
  { tableNumber := "T-1", waiterId := 7,
    items :=
      [ { itemId := 0, dishId := 1, quantity := 2,
          status := .accepted, notes := "" },
        { itemId := 1, dishId := 2, quantity := 1,
          status := .accepted, notes := "" } ],
    orderStatus := .preparing, totalAmount := 28,
    customerName := "Asha", customerPhoneNumber := "+9771234567",
    isBilled := false }

/-! ### C8 — bill generation is idempotent-safe -/

/-- C8: for every order already billed, `generateBill` fails with the
already-billed conflict error (the check precedes any persistence, so no
bill is created and the order is untouched); a successful first call marks
the order billed and completed while leaving its items and total
unchanged. -/
theorem C8_generateBill_idempotent_safe (catalog : List Dish) (t : Int)
    (o : Order) (userId : Nat) :
    (o.isBilled = true →
      generateBill catalog t o userId =
        .error ⟨400, "This order has already been billed"⟩) ∧
    (∀ bill o', generateBill catalog t o userId = .ok (bill, o') →
      o'.isBilled = true ∧ o'.orderStatus = OrderStatus.completed ∧
      o'.items = o.items ∧ o'.totalAmount = o.totalAmount) := by
  constructor
  · intro hb
    simp [generateBill, hb]
  · intro bill o' h
    obtain ⟨-, -, -, h4, h5, h6, h7⟩ := generateBill_ok_inv catalog t o
      userId bill o' h
    exact ⟨h4, h5, h6, h7⟩

/-- Witness for C8 at concrete inputs: a billed copy of the sample order
is rejected with the conflict error, and a successful first call on the
unbilled sample order marks it billed and completed. -/
theorem C8_generateBill_idempotent_safe_witness :
    (generateBill sampleCatalog 1500 { sampleOrder with isBilled := true }
        9 = .error ⟨400, "This order has already been billed"⟩) ∧
    ({ sampleOrder with isBilled := true, orderStatus := .completed
       : Order }.isBilled = true) := by
  constructor
  · exact (C8_generateBill_idempotent_safe sampleCatalog 1500
      { sampleOrder with isBilled := true } 9).1 rfl
  · have h := (C8_generateBill_idempotent_safe sampleCatalog 1500
      sampleOrder 9).2
      { billedBy := 9,
        items := [⟨1, 2, 10⟩, ⟨2, 1, 5⟩], totalAmount := 25,
        isSplitBill := false, splitGroupIdentifier := none,
        originalOrderTotal := 28, customerName := "Asha" }
      { sampleOrder with isBilled := true, orderStatus := .completed }
      rfl
    exact h.1

/-! ### C3 — bills are priced by the Pricing Resolver at bill time -/

/-- Dish whose special offer is a set-but-zero special price: regular
price 8, `isSpecial`, `specialPrice = 0` (the schema allows it, `min: 0`)
with window [1000, 2000]. -/
def dishZ : Dish :=
  { id := 4, price := 8, isAvailable := true, isSpecial := true,
    specialPrice := some 0, specialStartDate := some 1000,
    specialEndDate := some 2000 }

/-- Catalog for the C3 counterexample. -/
def catC3 : List Dish := [dishZ]

/-- Order with one accepted unit of dishZ, unbilled. -/
def ordC3 : Order :=
  { tableNumber := "T-8", waiterId := 7,
    items := [{ itemId := 0, dishId := 4, quantity := 1,
                status := .accepted, notes := "" }],
    orderStatus := .preparing, totalAmount := 8, customerName := "Maya",
    customerPhoneNumber := "+9777777777", isBilled := false }

/-- Counterexample to C3 as stated: at bill time 1500 dishZ is special,
its `specialPrice` and both window bounds are set, and 1500 lies inside
the inclusive window — so the claim resolver (`resolvePrice`) yields the
special price 0 — yet `generateBill` records the bill-item price 8
(= `dish.price`): the source guard `dish.specialPrice &&` is JS
truthiness, under which a zero special price never applies. -/
theorem C3_counterexample :
    generateBill catC3 1500 ordC3 9 =
      .ok ({ billedBy := 9,
             items := [{ dishId := 4, quantity := 1, price := 8 }],
             totalAmount := 8, isSplitBill := false,
             splitGroupIdentifier := none, originalOrderTotal := 8,
             customerName := "Maya" },
           { ordC3 with isBilled := true, orderStatus := .completed }) ∧
    dishZ.isSpecial = true ∧ dishZ.specialPrice = some 0 ∧
    dishZ.specialStartDate = some 1000 ∧
    dishZ.specialEndDate = some 2000 ∧
    resolvePrice dishZ 1500 = 0 ∧
    (8 : Nat) ≠ resolvePrice dishZ 1500 :=
  ⟨rfl, rfl, rfl, rfl, rfl, rfl, by decide⟩

/-- C3 as the code behaves: whenever `generateBill` succeeds at bill time
`t`, the bill lines are exactly the accepted order items, each priced by
the amended resolver `resolvePriceNonzero` — special price iff
`isSpecial`, `specialPrice` set AND non-zero, both bounds set, and `t`
inside the inclusive window — evaluated at `t` (the code `priceToUse`
provably equals it). The final order-item schema stores no price snapshot
at all, and the computation reads only the catalog and `t`, so the
order-time snapshot price can never be used. -/
theorem C3_amended_generateBill_uses_bill_time_resolver
    (catalog : List Dish) (t : Int) (o : Order) (userId : Nat)
    (bill : Bill) (o' : Order)
    (h : generateBill catalog t o userId = .ok (bill, o')) :
    bill.items = acceptedBillLines catalog t o.items ∧
    ∀ bi ∈ bill.items, ∃ d, findDish catalog bi.dishId = some d ∧
      bi.price = resolvePriceNonzero d t := by
  obtain ⟨-, hitems, -⟩ := generateBill_ok_inv catalog t o userId bill o' h
  refine ⟨hitems, ?_⟩
  rw [hitems]; clear hitems h
  induction o.items with
  | nil => simp [acceptedBillLines]
  | cons it rest ih =>
      unfold acceptedBillLines
      cases hd : findDish catalog it.dishId with
      | none => exact fun bi hbi => ih bi hbi
      | some d =>
          by_cases hst : it.status = ItemStatus.accepted
          · simp only [hst, if_true]
            intro bi hbi
            rcases List.mem_cons.1 hbi with hbi | hbi
            · subst hbi
              refine ⟨d, ?_, rfl⟩
              have : d.id = it.dishId := by
                have := List.find?_some hd
                simpa using this
              simpa [this] using hd
            · exact ih bi hbi
          · simp only [hst, if_false]
            exact fun bi hbi => ih bi hbi

/-- Witness for the amended C3: billing the sample order at time 1500
(inside the special window of dishB) yields lines priced 10 and 5 by the
amended resolver. -/
theorem C3_amended_generateBill_uses_bill_time_resolver_witness :
    ([⟨1, 2, 10⟩, ⟨2, 1, 5⟩] : List BillItem) =
      acceptedBillLines sampleCatalog 1500 sampleOrder.items ∧
    ∀ bi ∈ ([⟨1, 2, 10⟩, ⟨2, 1, 5⟩] : List BillItem),
      ∃ d, findDish sampleCatalog bi.dishId = some d ∧
        bi.price = resolvePriceNonzero d 1500 := by
  exact C3_amended_generateBill_uses_bill_time_resolver sampleCatalog 1500
    sampleOrder 9
    { billedBy := 9, items := [⟨1, 2, 10⟩, ⟨2, 1, 5⟩], totalAmount := 25,
      isSplitBill := false, splitGroupIdentifier := none,
      originalOrderTotal := 28, customerName := "Asha" }
    { sampleOrder with isBilled := true, orderStatus := .completed }
    rfl

/-! ### C2 — the totalAmount invariant -/

/-- Sum of quantity × price over the accepted-lineage items
({accepted, preparing, ready}), as the claim words the invariant. The
final order-item schema stores no price snapshot, so the only price in the
program is the catalog price the pre-save hook reads. -/
def acceptedLineageTotal (catalog : List Dish) : List OrderItem → Nat
  | [] => 0
  | it :: rest =>
      (if it.status = ItemStatus.accepted ∨
          it.status = ItemStatus.preparing ∨
          it.status = ItemStatus.ready then
        match findDish catalog it.dishId with
        | some d => d.price * it.quantity
        | none => 0
      else 0) + acceptedLineageTotal catalog rest

/-- Sum of quantity × price over the items whose status is exactly
`accepted` — the set the pre-save hook actually counts. -/
def acceptedOnlyTotal (catalog : List Dish) : List OrderItem → Nat
  | [] => 0
  | it :: rest =>
      (if it.status = ItemStatus.accepted then
        match findDish catalog it.dishId with
        | some d => d.price * it.quantity
        | none => 0
      else 0) + acceptedOnlyTotal catalog rest

/-- The redundant conjuncts of the hook filter change nothing: an item
counts iff its status is exactly `accepted`. -/
theorem recomputeTotal_eq_acceptedOnly (catalog : List Dish)
    (items : List OrderItem) :
    recomputeTotal catalog items = acceptedOnlyTotal catalog items := by
  induction items with
  | nil => rfl
  | cons it rest ih =>
      unfold recomputeTotal acceptedOnlyTotal
      rw [ih]
      congr 1
      cases hst : it.status <;> simp [hookCountsItem, hst]

/-- Saving (with modified items) establishes the hook invariant. -/
theorem saveOrder_totalAmount (catalog : List Dish) (o : Order) :
    (saveOrder catalog o).totalAmount =
      acceptedOnlyTotal catalog (saveOrder catalog o).items := by
  simp [saveOrder, recomputeTotal_eq_acceptedOnly]

/-- The mutating operations of the order engine named by the claim:
creation, item-status update, whole-order cancellation, cancellation
request and cancellation resolution. -/
inductive OrderOp
  | create (tableNumber customerName customerPhoneNumber : String)
      (lines : List OrderLine) (waiterId : Nat)
  | updateItem (itemId : Nat) (st : ItemStatus)
  | cancel (u : AuthUser)
  | requestCancel (u : AuthUser) (itemId : Nat)
  | manageCancel (itemId : Nat) (action : String)

/-- Dispatch an operation against an order (creation ignores the incoming
order). Every one of these controllers ends in `order.save()` with a
modified `items` array, so the pre-save hook recomputes the total. -/
def applyOrderOp (catalog : List Dish) (o : Order) :
    OrderOp → Except Err Order
  | .create tb cn cp lines w => createOrder catalog tb cn cp lines w
  | .updateItem iid st => updateOrderItemStatus catalog o iid st
  | .cancel u => cancelOrder catalog u o
  | .requestCancel u iid => requestItemCancellation catalog u o iid
  | .manageCancel iid act => manageItemCancellation catalog o iid act

/-- Order produced by the C2 counterexample creation step. -/
def ordC2pending : Order :=
  { tableNumber := "T-2", waiterId := 7,
    items := [{ itemId := 0, dishId := 1, quantity := 2,
                status := .pending, notes := "" }],
    orderStatus := .pending, totalAmount := 0, customerName := "Bina",
    customerPhoneNumber := "+9771111111", isBilled := false }

/-- The same order after the chef accepts the item. -/
def ordC2accepted : Order :=
  { ordC2pending with
    items := [{ itemId := 0, dishId := 1, quantity := 2,
                status := .accepted, notes := "" }],
    orderStatus := .preparing, totalAmount := 20 }

/-- The same order after the chef moves the item to `preparing`. -/
def ordC2preparing : Order :=
  { ordC2pending with
    items := [{ itemId := 0, dishId := 1, quantity := 2,
                status := .preparing, notes := "" }],
    orderStatus := .preparing, totalAmount := 0 }

/-- Counterexample to C2: create an order of 2 × dishA (price 10), accept
the item (total 20), then move it to `preparing`. The pre-save hook now
counts nothing — `totalAmount` drops to 0 — while the claimed invariant
(sum over accepted/preparing/ready items) demands 20. -/
theorem C2_counterexample :
    createOrder sampleCatalog "T-2" "Bina" "+9771111111"
      [{ dishId := 1, quantity := 2, notes := "" }] 7 = .ok ordC2pending ∧
    updateOrderItemStatus sampleCatalog ordC2pending 0 .accepted =
      .ok ordC2accepted ∧
    updateOrderItemStatus sampleCatalog ordC2accepted 0 .preparing =
      .ok ordC2preparing ∧
    ordC2preparing.totalAmount = 0 ∧
    acceptedLineageTotal sampleCatalog ordC2preparing.items = 20 :=
  ⟨rfl, rfl, rfl, rfl, rfl⟩

/-- C2 as the code maintains it: after every mutating operation that
succeeds, `totalAmount` equals the sum of quantity × current catalog price
over exactly the items whose status is `accepted` (items in `preparing`,
`ready` or any other status contribute nothing, and the price is re-read
from the catalog — no snapshot exists in the final schema). -/
theorem C2_amended_total_counts_only_accepted (catalog : List Dish)
    (o : Order) (op : OrderOp) (o' : Order)
    (h : applyOrderOp catalog o op = .ok o') :
    o'.totalAmount = acceptedOnlyTotal catalog o'.items := by
  cases op with
  | create tb cn cp lines w =>
      simp only [applyOrderOp] at h
      unfold createOrder at h
      repeat' split at h
      all_goals
        first
        | (injection h with h; rw [← h]; apply saveOrder_totalAmount)
        | injection h
  | updateItem iid st =>
      simp only [applyOrderOp] at h
      unfold updateOrderItemStatus at h
      repeat' split at h
      all_goals
        first
        | (injection h with h; rw [← h]; apply saveOrder_totalAmount)
        | injection h
  | cancel u =>
      simp only [applyOrderOp] at h
      unfold cancelOrder at h
      repeat' split at h
      all_goals
        first
        | (injection h with h; rw [← h]; apply saveOrder_totalAmount)
        | injection h
  | requestCancel u iid =>
      simp only [applyOrderOp] at h
      unfold requestItemCancellation at h
      repeat' split at h
      all_goals
        first
        | (injection h with h; rw [← h]; apply saveOrder_totalAmount)
        | injection h
  | manageCancel iid act =>
      simp only [applyOrderOp] at h
      unfold manageItemCancellation at h
      repeat' split at h
      all_goals
        first
        | (injection h with h; rw [← h]; apply saveOrder_totalAmount)
        | injection h

/-- Witness for the amended C2 at a concrete input: accepting the pending
sample item yields total 20, equal to the accepted-only sum. -/
theorem C2_amended_total_counts_only_accepted_witness :
    ordC2accepted.totalAmount =
      acceptedOnlyTotal sampleCatalog ordC2accepted.items :=
  C2_amended_total_counts_only_accepted sampleCatalog ordC2pending
    (.updateItem 0 .accepted) ordC2accepted rfl

/-! ### C4 — aggregate status derivation -/

/-- Order used for the C4 failing input: a fresh single-item order. -/
def ordC4pending : Order :=
  { tableNumber := "T-3", waiterId := 7,
    items := [{ itemId := 0, dishId := 1, quantity := 1,
                status := .pending, notes := "" }],
    orderStatus := .pending, totalAmount := 0, customerName := "Gita",
    customerPhoneNumber := "+9772222222", isBilled := false }

/-- The same order after the chef sets the item to `ready`. -/
def ordC4ready : Order :=
  { ordC4pending with
    items := [{ itemId := 0, dishId := 1, quantity := 1,
                status := .ready, notes := "" }] }

/-- C4 failing input, evaluated: setting the only item of a fresh order to
`ready` leaves the aggregate status `pending`, although no item is
`pending` and every accepted-lineage item is `ready`. The claim requires
the aggregate to be `pending` only while a pending item exists, and
`ready` here; the source guard
`orderItem.status === "accepted" && orderItem.status !== "ready"` can
never be false while `anyItemsAccepted` is true, so the `ready` branch is
unreachable, contradicting the source comment "All accepted items are
ready". -/
theorem C4_code_bug_ready_unreachable :
    updateOrderItemStatus sampleCatalog ordC4pending 0 .ready =
      .ok ordC4ready ∧
    (∀ it ∈ ordC4ready.items, it.status ≠ ItemStatus.pending) ∧
    (∀ it ∈ ordC4ready.items, it.status = ItemStatus.ready) ∧
    ordC4ready.orderStatus = OrderStatus.pending :=
  ⟨rfl, by decide, by decide, rfl⟩


/-! ### C5 — terminality of ready / declined / cancelled items -/

/-- Setting an item status rewrites exactly the entry found by
`items.id`. -/
theorem find_setItemStatus (items : List OrderItem) (itemId : Nat)
    (st : ItemStatus) :
    (setItemStatus items itemId st).find? (fun it => it.itemId == itemId) =
      (items.find? (fun it => it.itemId == itemId)).map
        (fun it => { it with status := st }) := by
  induction items with
  | nil => rfl
  | cons a rest ih =>
      simp only [setItemStatus, List.map_cons] at ih ⊢
      by_cases ha : (a.itemId == itemId) = true
      · simp [List.find?, ha]
      · have ha0 : (a.itemId == itemId) = false := by simpa using ha
        rw [if_neg ha, List.find?, List.find?, ha0]
        exact ih

/-- Successful path of `updateOrderItemStatus`, explicitly. -/
theorem updateOrderItemStatus_ok (catalog : List Dish) (o : Order)
    (itemId : Nat) (it : OrderItem) (st : ItemStatus)
    (hit : findItem o itemId = some it)
    (hv : validItemStatuses.contains st = true)
    (hguard : ¬(o.orderStatus = OrderStatus.completed ∨
      o.orderStatus = OrderStatus.cancelled ∨ o.isBilled = true)) :
    updateOrderItemStatus catalog o itemId st =
      .ok (saveOrder catalog
        { o with items := setItemStatus o.items itemId st,
                 orderStatus :=
                   deriveOrderStatus (setItemStatus o.items itemId st)
                     o.orderStatus }) := by
  unfold updateOrderItemStatus
  rw [hit]
  dsimp only
  rw [if_neg (not_not_intro hv), if_neg hguard]

/-- Successful path of `requestItemCancellation`, explicitly. -/
theorem requestItemCancellation_ok (catalog : List Dish) (u : AuthUser)
    (o : Order) (itemId : Nat) (it : OrderItem)
    (hit : findItem o itemId = some it)
    (hguard : ¬(o.orderStatus = OrderStatus.completed ∨
      o.isBilled = true ∨ it.status = ItemStatus.cancelled ∨
      it.status = ItemStatus.ready))
    (hauth : ¬(u.role = Role.waiter ∧ o.waiterId ≠ u.id)) :
    requestItemCancellation catalog u o itemId =
      .ok (saveOrder catalog { o with items := setItemStatus o.items itemId ItemStatus.cancellationRequested }) := by
  unfold requestItemCancellation
  rw [hit]
  dsimp only
  rw [if_neg hguard, if_neg hauth]

/-- Successful rejection path of `manageItemCancellation`, explicitly. -/
theorem manageItemCancellation_reject_ok (catalog : List Dish) (o : Order)
    (itemId : Nat) (it : OrderItem)
    (hit : findItem o itemId = some it)
    (hcr : it.status = ItemStatus.cancellationRequested) :
    manageItemCancellation catalog o itemId "reject" =
      .ok (saveOrder catalog { o with items := setItemStatus o.items itemId ItemStatus.accepted }) := by
  unfold manageItemCancellation
  rw [hit]
  dsimp only
  rw [if_neg (not_not_intro hcr)]
  rw [if_neg (by decide), if_pos rfl]

/-- Order with a single `ready` item, used as the C5 counterexample. -/
def ordC5ready : Order :=
  { tableNumber := "T-4", waiterId := 7,
    items := [{ itemId := 0, dishId := 1, quantity := 1,
                status := .ready, notes := "" }],
    orderStatus := .preparing, totalAmount := 0, customerName := "Hari",
    customerPhoneNumber := "+9773333333", isBilled := false }

/-- Counterexample to C5: on an active order, the chef endpoint happily
moves a `ready` item back to `accepted` — `updateOrderItemStatus` never
inspects the item current status, so none of `ready`, `declined`,
`cancelled` is terminal for an item of an active order. -/
theorem C5_counterexample :
    findItem ordC5ready 0 =
      some { itemId := 0, dishId := 1, quantity := 1,
             status := .ready, notes := "" } ∧
    updateOrderItemStatus sampleCatalog ordC5ready 0 .accepted =
      .ok { ordC5ready with
            items := [{ itemId := 0, dishId := 1, quantity := 1,
                        status := .accepted, notes := "" }],
            orderStatus := .preparing, totalAmount := 10 } :=
  ⟨rfl, rfl⟩

/-- C5 as the code behaves: `cancelled` and `ready` items are protected
only from the cancellation-request endpoint, and the resolution endpoint
touches only `cancellation_requested` items — but the chef item-status
endpoint changes an item in any current status (including `ready`,
`declined` and `cancelled`) to any valid target status whenever the order
is not completed, cancelled or billed. -/
theorem C5_amended_terminal_only_for_cancellation_flow
    (catalog : List Dish) (u : AuthUser) (o : Order) (itemId : Nat)
    (it : OrderItem) (hit : findItem o itemId = some it) :
    (it.status = ItemStatus.cancelled ∨ it.status = ItemStatus.ready →
      isErr (requestItemCancellation catalog u o itemId) = true) ∧
    (∀ act, it.status ≠ ItemStatus.cancellationRequested →
      isErr (manageItemCancellation catalog o itemId act) = true) ∧
    (∀ st, validItemStatuses.contains st = true →
      o.orderStatus ≠ OrderStatus.completed →
      o.orderStatus ≠ OrderStatus.cancelled → o.isBilled = false →
      ∃ o', updateOrderItemStatus catalog o itemId st = .ok o' ∧
        findItem o' itemId = some { it with status := st }) := by
  refine ⟨?_, ?_, ?_⟩
  · intro hst
    unfold requestItemCancellation
    rw [hit]
    dsimp only
    rw [if_pos (Or.inr (Or.inr hst))]
    rfl
  · intro act hst
    unfold manageItemCancellation
    rw [hit]
    dsimp only
    rw [if_pos hst]
    rfl
  · intro st hstv hoc hocc hb
    refine ⟨_, updateOrderItemStatus_ok catalog o itemId it st hit hstv
      (by simp [hoc, hocc, hb]), ?_⟩
    show (setItemStatus o.items itemId st).find?
        (fun x => x.itemId == itemId) = _
    rw [find_setItemStatus,
      show o.items.find? (fun x => x.itemId == itemId) = some it from hit]
    rfl

/-- Witness for the amended C5: on the concrete `ready`-item order, the
cancellation request is refused, resolution is refused, and the chef
endpoint succeeds in moving the item back to `accepted`. -/
theorem C5_amended_terminal_only_for_cancellation_flow_witness :
    isErr (requestItemCancellation sampleCatalog ⟨9, .admin⟩ ordC5ready 0)
        = true ∧
    isErr (manageItemCancellation sampleCatalog ordC5ready 0 "approve")
        = true ∧
    ∃ o', updateOrderItemStatus sampleCatalog ordC5ready 0 .accepted =
        .ok o' ∧
      findItem o' 0 = some { itemId := 0, dishId := 1, quantity := 1,
                             status := .accepted, notes := "" } := by
  have h := C5_amended_terminal_only_for_cancellation_flow sampleCatalog
    ⟨9, .admin⟩ ordC5ready 0
    { itemId := 0, dishId := 1, quantity := 1, status := .ready,
      notes := "" } rfl
  exact ⟨h.1 (Or.inr rfl), h.2.1 "approve" (by decide),
    h.2.2 .accepted (by decide) (by decide) (by decide) rfl⟩

/-! ### C10 — a declined item can re-enter the billable set -/

/-- C10: on an order that is neither completed nor billed, a `declined`
item passes the cancellation-request guard (which excludes only
`cancelled` and `ready`), becoming `cancellation_requested`; an admin
rejection then sets it to `accepted` — so a chef-declined item re-enters
the set the pre-save hook counts toward `totalAmount`, with no chef
action. -/
theorem C10_declined_item_reenters_billable (catalog : List Dish)
    (u : AuthUser) (o : Order) (itemId : Nat) (it : OrderItem)
    (hit : findItem o itemId = some it)
    (hst : it.status = ItemStatus.declined)
    (hoc : o.orderStatus ≠ OrderStatus.completed)
    (hb : o.isBilled = false)
    (hauth : ¬(u.role = Role.waiter ∧ o.waiterId ≠ u.id)) :
    ∃ o' o'',
      requestItemCancellation catalog u o itemId = .ok o' ∧
      findItem o' itemId =
        some { it with status := .cancellationRequested } ∧
      manageItemCancellation catalog o' itemId "reject" = .ok o'' ∧
      findItem o'' itemId = some { it with status := .accepted } ∧
      hookCountsItem { it with status := ItemStatus.accepted } = true := by
  have h1 := requestItemCancellation_ok catalog u o itemId it hit
    (by simp [hoc, hb, hst]) hauth
  have hf1 : findItem (saveOrder catalog { o with items := setItemStatus o.items itemId ItemStatus.cancellationRequested }) itemId =
      some { it with status := .cancellationRequested } := by
    show (setItemStatus o.items itemId ItemStatus.cancellationRequested).find? (fun x => x.itemId == itemId) = _
    rw [find_setItemStatus,
      show o.items.find? (fun x => x.itemId == itemId) = some it from hit]
    rfl
  have h2 := manageItemCancellation_reject_ok catalog
    (saveOrder catalog { o with items := setItemStatus o.items itemId ItemStatus.cancellationRequested }) itemId _ hf1 rfl
  refine ⟨_, _, h1, hf1, h2, ?_, by simp [hookCountsItem]⟩
  show (setItemStatus (saveOrder catalog { o with items := setItemStatus o.items itemId ItemStatus.cancellationRequested }).items itemId ItemStatus.accepted).find? (fun x => x.itemId == itemId) = _
  rw [find_setItemStatus,
    show (saveOrder catalog { o with items := setItemStatus o.items itemId ItemStatus.cancellationRequested }).items.find? (fun x => x.itemId == itemId) =
      some { it with status := .cancellationRequested } from hf1]
  rfl

/-- Order with a single `declined` item for the C10 witness. -/
def ordC10declined : Order :=
  { tableNumber := "T-6", waiterId := 7,
    items := [{ itemId := 0, dishId := 1, quantity := 1,
                status := .declined, notes := "" }],
    orderStatus := .preparing, totalAmount := 0, customerName := "Sita",
    customerPhoneNumber := "+9775555555", isBilled := false }

/-- Witness for C10 on the concrete declined-item order. -/
theorem C10_declined_item_reenters_billable_witness :
    ∃ o' o'',
      requestItemCancellation sampleCatalog ⟨9, .admin⟩ ordC10declined 0 =
        .ok o' ∧
      findItem o' 0 = some { itemId := 0, dishId := 1, quantity := 1,
                             status := .cancellationRequested,
                             notes := "" } ∧
      manageItemCancellation sampleCatalog o' 0 "reject" = .ok o'' ∧
      findItem o'' 0 = some { itemId := 0, dishId := 1, quantity := 1,
                              status := .accepted, notes := "" } ∧
      hookCountsItem { itemId := 0, dishId := 1, quantity := 1,
                       status := ItemStatus.accepted, notes := "" }
        = true :=
  C10_declined_item_reenters_billable sampleCatalog ⟨9, .admin⟩
    ordC10declined 0
    { itemId := 0, dishId := 1, quantity := 1, status := .declined,
      notes := "" }
    rfl rfl (by decide) rfl (by decide)

/-! ### C9 — order-creation validation -/

/-- The item-validation loop succeeds exactly when every line references
an existing dish and has positive quantity; the dish `isAvailable` flag is
never consulted. -/
theorem buildOrderItems_ok_iff (catalog : List Dish) :
    ∀ (lines : List OrderLine) (idx : Nat),
    (∃ items, buildOrderItems catalog lines idx = .ok items) ↔
      ∀ l ∈ lines, (findDish catalog l.dishId).isSome ∧ 1 ≤ l.quantity := by
  intro lines
  induction lines with
  | nil => intro idx; simp [buildOrderItems]
  | cons l ls ih =>
      intro idx
      constructor
      · rintro ⟨items, h⟩
        unfold buildOrderItems at h
        cases hd : findDish catalog l.dishId with
        | none => rw [hd] at h; exact absurd h (by simp)
        | some d =>
            rw [hd] at h
            dsimp only at h
            by_cases hq : l.quantity ≤ 0
            · rw [if_pos hq] at h; exact absurd h (by simp)
            · rw [if_neg hq] at h
              intro x hx
              rcases List.mem_cons.1 hx with rfl | hx
              · exact ⟨by simp [hd], by omega⟩
              · cases hrest : buildOrderItems catalog ls (idx + 1) with
                | error e => rw [hrest] at h; exact absurd h (by simp)
                | ok its => exact ((ih (idx + 1)).1 ⟨its, hrest⟩) x hx
      · intro hall
        unfold buildOrderItems
        obtain ⟨hds, hq⟩ := hall l (List.mem_cons_self l ls)
        cases hd : findDish catalog l.dishId with
        | none => rw [hd] at hds; exact absurd hds (by simp)
        | some d =>
            dsimp only
            rw [if_neg (by omega)]
            obtain ⟨its, hits⟩ := (ih (idx + 1)).2
              (fun x hx => hall x (List.mem_cons_of_mem l hx))
            rw [hits]
            exact ⟨_, rfl⟩

/-- Counterexample to C9: dishC exists in the catalog with
`isAvailable = false`, yet `createOrder` (final revision) accepts a line
referencing it — the availability check present in earlier revisions was
dropped. -/
theorem C9_counterexample :
    createOrder sampleCatalog "T-5" "Ram" "+9774444444"
      [{ dishId := 3, quantity := 1, notes := "" }] 7 =
      .ok { tableNumber := "T-5", waiterId := 7,
            items := [{ itemId := 0, dishId := 3, quantity := 1,
                        status := .pending, notes := "" }],
            orderStatus := .pending, totalAmount := 0,
            customerName := "Ram", customerPhoneNumber := "+9774444444",
            isBilled := false } ∧
    (findDish sampleCatalog 3).map Dish.isAvailable = some false :=
  ⟨rfl, rfl⟩

/-- C9 as the code behaves: order creation succeeds exactly when the
header fields and the item list are non-empty, every line references an
existing dish and every quantity is at least 1. Unavailability of a
referenced dish does not cause rejection. -/
theorem C9_amended_create_rejects_missing_dish_or_bad_quantity
    (catalog : List Dish) (tb cn cp : String) (lines : List OrderLine)
    (w : Nat) :
    (∃ o, createOrder catalog tb cn cp lines w = .ok o) ↔
      (tb ≠ "" ∧ cn ≠ "" ∧ cp ≠ "" ∧ lines ≠ [] ∧
       ∀ l ∈ lines, (findDish catalog l.dishId).isSome ∧
         1 ≤ l.quantity) := by
  unfold createOrder
  by_cases hg : tb = "" ∨ cn = "" ∨ cp = "" ∨ lines = []
  · rw [if_pos hg]
    constructor
    · rintro ⟨o, h⟩; exact absurd h (by simp)
    · rintro ⟨h1, h2, h3, h4, -⟩
      exact absurd hg (by tauto)
  · rw [if_neg hg]
    push_neg at hg
    obtain ⟨h1, h2, h3, h4⟩ := hg
    constructor
    · rintro ⟨o, h⟩
      refine ⟨h1, h2, h3, h4, ?_⟩
      cases hb : buildOrderItems catalog lines 0 with
      | error e => rw [hb] at h; exact absurd h (by simp)
      | ok items => exact (buildOrderItems_ok_iff catalog lines 0).1 ⟨items, hb⟩
    · rintro ⟨-, -, -, -, hall⟩
      obtain ⟨items, hb⟩ := (buildOrderItems_ok_iff catalog lines 0).2 hall
      rw [hb]
      exact ⟨_, rfl⟩

/-- Witness for the amended C9: the unavailable-dish line satisfies the
characterization, so creation succeeds on it. -/
theorem C9_amended_create_rejects_missing_dish_or_bad_quantity_witness :
    ∃ o, createOrder sampleCatalog "T-5" "Ram" "+9774444444"
      [{ dishId := 3, quantity := 1, notes := "" }] 7 = .ok o :=
  (C9_amended_create_rejects_missing_dish_or_bad_quantity sampleCatalog
    "T-5" "Ram" "+9774444444"
    [{ dishId := 3, quantity := 1, notes := "" }] 7).mpr (by decide)

/-! ### C6 — reservation conflict window -/

/-- Existing confirmed reservation for table T-1 at instant 1000. -/
def dbC6 : List Reservation :=
  [{ tableNumber := "T-1", customerName := "Asha",
     customerPhoneNumber := "+9771234567", numberOfGuests := 2,
     reservationTime := 1000, status := .confirmed,
     isCustomerReservation := false, reservedBy := 1, notes := "" }]

/-- Request for the same table 3 hours (10800000 ms) later. -/
def reqC6 : ReservationRequest :=
  { tableNumber := "T-1", customerName := "Bina",
    customerPhoneNumber := "+9771111111", numberOfGuests := 2,
    reservationTime := 10801000, notes := "" }

/-- Counterexample to C6: the two instants are 3 hours apart — within the
4-hour bound of the claim — yet the second creation succeeds, because the
code conflict test only looks for existing reservation times inside the
±2-hour window around the requested instant. -/
theorem C6_counterexample :
    (reqC6.reservationTime - 1000 : Int).natAbs ≤ 14400000 ∧
    isErr (createReservation dbC6 reqC6 5) = false :=
  ⟨by decide, rfl⟩

/-- C6 as the code behaves: a second reservation for the same table is
refused with a 409 exactly on the ±2-hour inclusive window — whenever an
active (pending, confirmed or seated) reservation for that table lies
within 2 hours of the requested instant, both the staff and the customer
creation endpoints fail with 409. A separation of more than 2 hours (such
as the 3-hour counterexample) is accepted. -/
theorem C6_amended_conflict_is_two_hour_window (db : List Reservation)
    (r : Reservation) (req : ReservationRequest) (userId : Nat)
    (hr : r ∈ db) (htab : r.tableNumber = req.tableNumber)
    (hact : activeResStatus r.status = true)
    (hwin : (req.reservationTime - r.reservationTime).natAbs ≤ 7200000)
    (hmem : allTableNumbers.contains req.tableNumber = true)
    (hcn : req.customerName ≠ "") (hcp : req.customerPhoneNumber ≠ "")
    (hgu : 1 ≤ req.numberOfGuests) (ht : req.reservationTime ≠ 0) :
    createReservation db req userId =
      .error ⟨409, "Table is already reserved or unavailable around this time."⟩ ∧
    createCustomerReservation db req userId =
      .error ⟨409, "Table is already reserved or unavailable around this time."⟩ := by
  have htb : req.tableNumber ≠ "" := by
    intro h
    rw [h] at hmem
    exact absurd hmem (by decide)
  have hguard : ¬(req.tableNumber = "" ∨ req.customerName = "" ∨
      req.customerPhoneNumber = "" ∨ req.numberOfGuests = 0 ∨
      req.reservationTime = 0) := by
    push_neg
    exact ⟨htb, hcn, hcp, by omega, ht⟩
  have hconf : conflictExists db req.tableNumber req.reservationTime
      = true := by
    unfold conflictExists
    rw [List.any_eq_true]
    refine ⟨r, hr, ?_⟩
    have h1 : req.reservationTime - twoHoursMs ≤ r.reservationTime := by
      unfold twoHoursMs
      omega
    have h2 : r.reservationTime ≤ req.reservationTime + twoHoursMs := by
      unfold twoHoursMs
      omega
    simp [htab, h1, h2, hact]
  constructor
  · unfold createReservation
    rw [if_neg hguard, if_neg (not_not_intro hmem),
      if_neg (not_lt.mpr hgu), if_pos hconf]
  · unfold createCustomerReservation
    rw [if_neg hguard, if_neg (not_not_intro hmem),
      if_neg (not_lt.mpr hgu), if_pos hconf]

/-- Witness for the amended C6: a request 1 hour after the stored
reservation is refused by both endpoints. -/
theorem C6_amended_conflict_is_two_hour_window_witness :
    createReservation dbC6
      { tableNumber := "T-1", customerName := "Bina",
        customerPhoneNumber := "+9771111111", numberOfGuests := 2,
        reservationTime := 3601000, notes := "" } 5 =
      .error ⟨409, "Table is already reserved or unavailable around this time."⟩ ∧
    createCustomerReservation dbC6
      { tableNumber := "T-1", customerName := "Bina",
        customerPhoneNumber := "+9771111111", numberOfGuests := 2,
        reservationTime := 3601000, notes := "" } 5 =
      .error ⟨409, "Table is already reserved or unavailable around this time."⟩ :=
  C6_amended_conflict_is_two_hour_window dbC6
    { tableNumber := "T-1", customerName := "Asha",
      customerPhoneNumber := "+9771234567", numberOfGuests := 2,
      reservationTime := 1000, status := .confirmed,
      isCustomerReservation := false, reservedBy := 1, notes := "" }
    { tableNumber := "T-1", customerName := "Bina",
      customerPhoneNumber := "+9771111111", numberOfGuests := 2,
      reservationTime := 3601000, notes := "" } 5
    (by decide) rfl rfl (by decide) (by decide) (by decide) (by decide)
    (by decide) (by decide)


/-! ### C1 — sub-bill persistence on split failure -/

/-- Every portion processed without error persists exactly one sub-bill:
a fully successful pass saves one bill per portion. -/
theorem processSplits_ok_length (t : Int) (origTotal : Nat)
    (phone : String) (gid userId : Nat) :
    ∀ (splits : List SplitPortion) (m : AvailMap) (idx : Nat)
      (bills : List Bill) (m' : AvailMap),
    processSplits t origTotal phone gid userId splits m idx =
      (bills, .ok m') → bills.length = splits.length := by
  intro splits
  induction splits with
  | nil =>
      intro m idx bills m' h
      unfold processSplits at h
      have := congrArg Prod.fst h
      simp at this
      simp [this.symm]
  | cons sp rest ih =>
      intro m idx bills m' h
      unfold processSplits at h
      by_cases hsp : sp.items = []
      · rw [if_pos hsp] at h
        have := congrArg Prod.snd h
        exact absurd this (by simp)
      · rw [if_neg hsp] at h
        cases hpi : processSplitItems t sp.items m [] with
        | error e =>
            rw [hpi] at h
            have := congrArg Prod.snd h
            exact absurd this (by simp)
        | ok res =>
            obtain ⟨billItems, amt, m1⟩ := res
            rw [hpi] at h
            dsimp only at h
            cases hrec : processSplits t origTotal phone gid userId rest
                m1 (idx + 1) with
            | mk bills0 res0 =>
                rw [hrec] at h
                dsimp only at h
                have hfst := congrArg Prod.fst h
                have hsnd := congrArg Prod.snd h
                dsimp at hfst hsnd
                rw [← hfst]
                simp [ih m1 (idx + 1) bills0 m' (by rw [hrec, hsnd])]

/-- Inversion of a fully successful `splitBill`. -/
theorem splitBill_ok_inv (catalog : List Dish) (t : Int) (o : Order)
    (splits : List SplitPortion) (gid userId : Nat) (bills : List Bill)
    (o' : Order)
    (h : splitBill catalog t o splits gid userId = (bills, .ok o')) :
    2 ≤ splits.length ∧ o.isBilled = false ∧
    processSplits t o.totalAmount o.customerPhoneNumber gid userId splits
      (buildAcceptedMapFold catalog o.items) 0 = (bills, .ok []) ∧
    o' = { o with isBilled := true,
                  orderStatus := OrderStatus.completed } := by
  unfold splitBill at h
  by_cases hlen : splits.length < 2
  · rw [if_pos hlen] at h
    exact absurd (congrArg Prod.snd h) (by simp)
  · rw [if_neg hlen] at h
    by_cases hb : o.isBilled
    · rw [if_pos hb] at h
      exact absurd (congrArg Prod.snd h) (by simp)
    · rw [if_neg hb] at h
      dsimp only at h
      by_cases hm : buildAcceptedMapFold catalog o.items = []
      · rw [if_pos hm] at h
        exact absurd (congrArg Prod.snd h) (by simp)
      · rw [if_neg hm] at h
        cases hrec : processSplits t o.totalAmount o.customerPhoneNumber
            gid userId splits (buildAcceptedMapFold catalog o.items) 0 with
        | mk bills0 res0 =>
            rw [hrec] at h
            dsimp only at h
            cases res0 with
            | error e =>
                exact absurd (congrArg Prod.snd h) (by simp)
            | ok mFinal =>
                dsimp only at h
                by_cases hne : mFinal ≠ []
                · rw [if_pos hne] at h
                  exact absurd (congrArg Prod.snd h) (by simp)
                · rw [if_neg hne] at h
                  push_neg at hne
                  subst hne
                  have hfst := congrArg Prod.fst h
                  have hsnd := congrArg Prod.snd h
                  dsimp at hfst hsnd
                  injection hsnd with hsnd
                  exact ⟨by omega, by simpa using hb, by rw [hfst],
                    hsnd.symm⟩

/-- Order with 3 × dishA accepted, total 30, unbilled. -/
def ordC1 : Order :=
  { tableNumber := "T-7", waiterId := 7,
    items := [{ itemId := 0, dishId := 1, quantity := 3,
                status := .accepted, notes := "" }],
    orderStatus := .preparing, totalAmount := 30, customerName := "Kiran",
    customerPhoneNumber := "+9776666666", isBilled := false }

/-- A split proposal covering only 2 of the 3 accepted units. -/
def splitsC1 : List SplitPortion :=
  [{ customerName := none, items := [{ dishId := 1, quantity := 1 }] },
   { customerName := none, items := [{ dishId := 1, quantity := 1 }] }]

/-- Counterexample to C1: both portions validate, so both sub-bills are
saved inside the loop; only afterwards does the leftover check fail the
request — the operation errors with one unit unallocated, yet two
sub-bills were persisted, so the split is not all-or-none. -/
theorem C1_counterexample :
    (splitBill sampleCatalog 0 ordC1 splitsC1 42 9).1.length = 2 ∧
    isErr (splitBill sampleCatalog 0 ordC1 splitsC1 42 9).2 = true :=
  ⟨rfl, rfl⟩

/-- C1 as the code behaves. Success half: when `splitBill` succeeds, all N
sub-bills are persisted and the order is marked billed and completed.
Failure half: when every portion validates but allocatable quantity is
left over, the operation fails with the 400 leftover error and the order
is not marked billed — but all N sub-bills (one per portion) remain
persisted; nothing is rolled back. -/
theorem C1_amended_split_failure_keeps_saved_subbills
    (catalog : List Dish) (t : Int) (o : Order)
    (splits : List SplitPortion) (gid userId : Nat) :
    (∀ bills o', splitBill catalog t o splits gid userId =
        (bills, .ok o') →
      bills.length = splits.length ∧ o'.isBilled = true ∧
      o'.orderStatus = OrderStatus.completed) ∧
    (∀ bills m', 2 ≤ splits.length → o.isBilled = false →
      buildAcceptedMapFold catalog o.items ≠ [] →
      processSplits t o.totalAmount o.customerPhoneNumber gid userId
        splits (buildAcceptedMapFold catalog o.items) 0 =
        (bills, .ok m') →
      m' ≠ [] →
      splitBill catalog t o splits gid userId =
        (bills, .error ⟨400, "Not all original accepted order items were allocated in the splits."⟩) ∧
      bills.length = splits.length) := by
  constructor
  · intro bills o' h
    obtain ⟨-, -, hps, ho'⟩ :=
      splitBill_ok_inv catalog t o splits gid userId bills o' h
    refine ⟨processSplits_ok_length t o.totalAmount o.customerPhoneNumber
      gid userId splits (buildAcceptedMapFold catalog o.items) 0 bills []
      hps, ?_, ?_⟩ <;> rw [ho']
  · intro bills m' hlen hb hm hps hm'
    constructor
    · unfold splitBill
      rw [if_neg (not_lt.mpr hlen), if_neg (by simp [hb])]
      dsimp only
      rw [if_neg hm, hps]
      dsimp only
      rw [if_pos hm']
    · exact processSplits_ok_length t o.totalAmount o.customerPhoneNumber
        gid userId splits (buildAcceptedMapFold catalog o.items) 0 bills
        m' hps

/-- The two sub-bills persisted by the failing C1 split. -/
def billC1a : Bill :=
  { billedBy := 9, items := [{ dishId := 1, quantity := 1, price := 10 }],
    totalAmount := 10, isSplitBill := true,
    splitGroupIdentifier := some 42, originalOrderTotal := 30,
    customerName := "Split Customer 1" }

/-- Second persisted sub-bill of the failing C1 split. -/
def billC1b : Bill :=
  { billC1a with customerName := "Split Customer 2" }

/-- Witness for the amended C1, both halves at concrete inputs: the
under-allocating split fails with the leftover error while keeping both
saved sub-bills, and a fully draining split succeeds, marking the order
billed and completed. -/
theorem C1_amended_split_failure_keeps_saved_subbills_witness :
    (splitBill sampleCatalog 0 ordC1 splitsC1 42 9 =
      ([billC1a, billC1b],
       .error ⟨400, "Not all original accepted order items were allocated in the splits."⟩) ∧
     ([billC1a, billC1b] : List Bill).length = splitsC1.length) ∧
    (([billC1a, { billC1a with
        items := [{ dishId := 1, quantity := 2, price := 10 }],
        totalAmount := 20, customerName := "Split Customer 2" }] :
          List Bill).length =
      ([{ customerName := none,
          items := [({ dishId := 1, quantity := 1 } : SplitItem)] },
        { customerName := none,
          items := [({ dishId := 1, quantity := 2 } : SplitItem)] }] :
            List SplitPortion).length ∧
     ({ ordC1 with isBilled := true,
                   orderStatus := OrderStatus.completed
        : Order }).isBilled = true ∧
     ({ ordC1 with isBilled := true,
                   orderStatus := OrderStatus.completed
        : Order }).orderStatus = OrderStatus.completed) := by
  constructor
  · exact (C1_amended_split_failure_keeps_saved_subbills sampleCatalog 0
      ordC1 splitsC1 42 9).2 [billC1a, billC1b] [(1, dishA, 1)]
      (by decide) rfl (by decide) rfl (by decide)
  · exact (C1_amended_split_failure_keeps_saved_subbills sampleCatalog 0
      ordC1
      [{ customerName := none,
         items := [{ dishId := 1, quantity := 1 }] },
       { customerName := none,
         items := [{ dishId := 1, quantity := 2 }] }] 42 9).1
      [billC1a, { billC1a with
        items := [{ dishId := 1, quantity := 2, price := 10 }],
        totalAmount := 20, customerName := "Split Customer 2" }]
      { ordC1 with isBilled := true, orderStatus := OrderStatus.completed }
      rfl

/-! ### C7 — a full split preserves the billable total -/

/-- Remaining billable value of the availability map at time `t`. -/
def mapTotal (t : Int) : AvailMap → Nat
  | [] => 0
  | (_, d, q) :: rest => q * priceToUse d t + mapTotal t rest

/-- Sum of the sub-bill totals. -/
def billsTotal : List Bill → Nat
  | [] => 0
  | b :: rest => b.totalAmount + billsTotal rest

/-- Sum over the order accepted items of quantity × the split-time price
the program computes (the amended non-zero resolver, provably equal to
`priceToUse`); items whose dish reference does not resolve are skipped,
exactly as the availability map construction skips them. -/
def acceptedResolvedTotal (catalog : List Dish) (t : Int) :
    List OrderItem → Nat
  | [] => 0
  | it :: rest =>
      (if it.status = ItemStatus.accepted then
        match findDish catalog it.dishId with
        | some d => it.quantity * resolvePriceNonzero d t
        | none => 0
      else 0) + acceptedResolvedTotal catalog t rest

/-- Updating the remaining quantity of a looked-up entry moves exactly
the difference of value in or out of the map total. -/
theorem lookupAvail_update_total (t : Int) :
    ∀ (m : AvailMap) (k : Nat) (d : Dish) (a v : Nat),
    lookupAvail m k = some (d, a) →
    mapTotal t (availUpdate m k v) + a * priceToUse d t =
      mapTotal t m + v * priceToUse d t := by
  intro m
  induction m with
  | nil => intro k d a v h; simp [lookupAvail] at h
  | cons e rest ih =>
      intro k d a v h
      obtain ⟨k0, d0, q0⟩ := e
      by_cases hk : (k0 == k) = true
      · have hda : d0 = d ∧ q0 = a := by
          simp [lookupAvail, List.find?, hk] at h
          exact ⟨h.1, h.2⟩
        obtain ⟨rfl, rfl⟩ := hda
        unfold availUpdate
        rw [if_pos hk]
        simp only [mapTotal]
        ring
      · have hl : lookupAvail rest k = some (d, a) := by
          have h0 : (k0 == k) = false := by simpa using hk
          simpa [lookupAvail, List.find?, h0] using h
        unfold availUpdate
        rw [if_neg hk]
        simp only [mapTotal]
        have h' := ih k d a v hl
        rw [Nat.add_assoc, Nat.add_assoc, h']

/-- Deleting a looked-up entry removes exactly its value from the map
total. -/
theorem lookupAvail_delete_total (t : Int) :
    ∀ (m : AvailMap) (k : Nat) (d : Dish) (a : Nat),
    lookupAvail m k = some (d, a) →
    mapTotal t (availDelete m k) + a * priceToUse d t = mapTotal t m := by
  intro m
  induction m with
  | nil => intro k d a h; simp [lookupAvail] at h
  | cons e rest ih =>
      intro k d a h
      obtain ⟨k0, d0, q0⟩ := e
      by_cases hk : (k0 == k) = true
      · have hda : d0 = d ∧ q0 = a := by
          simp [lookupAvail, List.find?, hk] at h
          exact ⟨h.1, h.2⟩
        obtain ⟨rfl, rfl⟩ := hda
        unfold availDelete
        rw [if_pos hk]
        simp only [mapTotal]
        ring
      · have hl : lookupAvail rest k = some (d, a) := by
          have h0 : (k0 == k) = false := by simpa using hk
          simpa [lookupAvail, List.find?, h0] using h
        unfold availDelete
        rw [if_neg hk]
        simp only [mapTotal]
        have h' := ih k d a hl
        rw [Nat.add_assoc, h']

/-- A successful pass over one split portion moves exactly the billed
amount out of the availability map. -/
theorem processSplitItems_total (t : Int) :
    ∀ (sis : List SplitItem) (m : AvailMap) (tracker : List Nat)
      (items : List BillItem) (amt : Nat) (m' : AvailMap),
    processSplitItems t sis m tracker = .ok (items, amt, m') →
    amt + mapTotal t m' = mapTotal t m := by
  intro sis
  induction sis with
  | nil =>
      intro m tracker items amt m' h
      unfold processSplitItems at h
      injection h with h
      have h2 := congrArg (fun x => x.2.1) h
      have h3 := congrArg (fun x => x.2.2) h
      dsimp at h2 h3
      rw [← h2, ← h3]
      simp
  | cons si rest ih =>
      intro m tracker items amt m' h
      unfold processSplitItems at h
      by_cases hq : si.quantity ≤ 0
      · rw [if_pos hq] at h; exact absurd h (by simp)
      · rw [if_neg hq] at h
        by_cases htr : tracker.contains si.dishId = true
        · rw [if_pos htr] at h; exact absurd h (by simp)
        · rw [if_neg htr] at h
          cases hl : lookupAvail m si.dishId with
          | none => rw [hl] at h; exact absurd h (by simp)
          | some da =>
              obtain ⟨d, avail⟩ := da
              rw [hl] at h
              dsimp only at h
              by_cases hgt : (avail : Int) < si.quantity
              · rw [if_pos hgt] at h; exact absurd h (by simp)
              · rw [if_neg hgt] at h
                have hqpos : 0 < si.quantity := by omega
                have hle : si.quantity.toNat ≤ avail := by omega
                cases hrec : processSplitItems t rest
                    (if avail - si.quantity.toNat = 0 then
                      availDelete m si.dishId
                    else availUpdate m si.dishId
                      (avail - si.quantity.toNat))
                    (si.dishId :: tracker) with
                | error e => rw [hrec] at h; exact absurd h (by simp)
                | ok res =>
                    obtain ⟨ti, ta, mf⟩ := res
                    rw [hrec] at h
                    dsimp only at h
                    injection h with h
                    have hamt := congrArg (fun x => x.2.1) h
                    have hmf := congrArg (fun x => x.2.2) h
                    dsimp at hamt hmf
                    rw [← hamt, ← hmf]
                    have hih := ih _ (si.dishId :: tracker) ti ta mf hrec
                    by_cases hz : avail - si.quantity.toNat = 0
                    · rw [if_pos hz] at hih
                      have heq : si.quantity.toNat = avail := by omega
                      have hdel := lookupAvail_delete_total t m si.dishId
                        d avail hl
                      rw [heq]
                      calc avail * priceToUse d t + ta + mapTotal t mf
                          = avail * priceToUse d t +
                              (ta + mapTotal t mf) := by ring
                        _ = avail * priceToUse d t +
                              mapTotal t (availDelete m si.dishId) := by
                            rw [hih]
                        _ = mapTotal t m := by
                            rw [Nat.add_comm]
                            exact hdel
                    · rw [if_neg hz] at hih
                      have hupd := lookupAvail_update_total t m si.dishId
                        d avail (avail - si.quantity.toNat) hl
                      have hsum : (avail - si.quantity.toNat) *
                            priceToUse d t +
                            si.quantity.toNat * priceToUse d t =
                          avail * priceToUse d t := by
                        rw [← Nat.add_mul, Nat.sub_add_cancel hle]
                      have hgoal : si.quantity.toNat * priceToUse d t +
                          mapTotal t (availUpdate m si.dishId
                            (avail - si.quantity.toNat)) =
                          mapTotal t m := by
                        have := Nat.add_right_cancel
                          (show si.quantity.toNat * priceToUse d t +
                              mapTotal t (availUpdate m si.dishId
                                (avail - si.quantity.toNat)) +
                              avail * priceToUse d t =
                            mapTotal t m + avail * priceToUse d t from by
                            calc si.quantity.toNat * priceToUse d t +
                                mapTotal t (availUpdate m si.dishId
                                  (avail - si.quantity.toNat)) +
                                avail * priceToUse d t
                                = (mapTotal t (availUpdate m si.dishId
                                    (avail - si.quantity.toNat)) +
                                    avail * priceToUse d t) +
                                    si.quantity.toNat * priceToUse d t :=
                                  by ring
                              _ = (mapTotal t m + (avail -
                                    si.quantity.toNat) *
                                    priceToUse d t) +
                                    si.quantity.toNat * priceToUse d t :=
                                  by rw [hupd]
                              _ = mapTotal t m + avail * priceToUse d t :=
                                  by rw [Nat.add_assoc, hsum])
                        exact this
                      calc si.quantity.toNat * priceToUse d t + ta +
                            mapTotal t mf
                          = si.quantity.toNat * priceToUse d t +
                              (ta + mapTotal t mf) := by ring
                        _ = si.quantity.toNat * priceToUse d t +
                              mapTotal t (availUpdate m si.dishId
                                (avail - si.quantity.toNat)) := by
                            rw [hih]
                        _ = mapTotal t m := hgoal

/-- A successful pass over all portions converts the whole map total into
the sum of the persisted sub-bill totals. -/
theorem processSplits_total (t : Int) (origTotal : Nat) (phone : String)
    (gid userId : Nat) :
    ∀ (splits : List SplitPortion) (m : AvailMap) (idx : Nat)
      (bills : List Bill) (m' : AvailMap),
    processSplits t origTotal phone gid userId splits m idx =
      (bills, .ok m') →
    billsTotal bills + mapTotal t m' = mapTotal t m := by
  intro splits
  induction splits with
  | nil =>
      intro m idx bills m' h
      unfold processSplits at h
      have hfst := congrArg Prod.fst h
      have hsnd := congrArg Prod.snd h
      dsimp at hfst hsnd
      injection hsnd with hsnd
      rw [← hfst, ← hsnd]
      simp [billsTotal]
  | cons sp rest ih =>
      intro m idx bills m' h
      unfold processSplits at h
      by_cases hsp : sp.items = []
      · rw [if_pos hsp] at h
        exact absurd (congrArg Prod.snd h) (by simp)
      · rw [if_neg hsp] at h
        cases hpi : processSplitItems t sp.items m [] with
        | error e =>
            rw [hpi] at h
            exact absurd (congrArg Prod.snd h) (by simp)
        | ok res =>
            obtain ⟨billItems, amt, m1⟩ := res
            rw [hpi] at h
            dsimp only at h
            cases hrec : processSplits t origTotal phone gid userId rest
                m1 (idx + 1) with
            | mk bills0 res0 =>
                rw [hrec] at h
                dsimp only at h
                have hfst := congrArg Prod.fst h
                have hsnd := congrArg Prod.snd h
                dsimp at hfst hsnd
                rw [← hfst]
                have hih := ih m1 (idx + 1) bills0 m'
                  (by rw [hrec, hsnd])
                have hpi' := processSplitItems_total t sp.items m []
                  billItems amt m1 hpi
                unfold billsTotal
                dsimp only
                calc amt + billsTotal bills0 + mapTotal t m'
                    = amt + (billsTotal bills0 + mapTotal t m') := by ring
                  _ = amt + mapTotal t m1 := by rw [hih]
                  _ = mapTotal t m := hpi'

/-- Well-formedness of the availability map: every stored dish document
is the catalog document for its key. -/
def availMapWF (catalog : List Dish) (m : AvailMap) : Prop :=
  ∀ e ∈ m, findDish catalog e.1 = some e.2.1

/-- Inserting a looked-up catalog dish adds exactly its value to the map
total. -/
theorem mapTotal_availInsert (catalog : List Dish) (t : Int) :
    ∀ (m : AvailMap), availMapWF catalog m →
    ∀ (d : Dish), findDish catalog d.id = some d → ∀ q,
    mapTotal t (availInsert m d q) =
      mapTotal t m + q * priceToUse d t := by
  intro m
  induction m with
  | nil =>
      intro _ d hd q
      simp [availInsert, mapTotal]
  | cons e rest ih =>
      intro hwf d hd q
      obtain ⟨k0, d0, q0⟩ := e
      by_cases hk : (k0 == d.id) = true
      · have hwf0 := hwf (k0, d0, q0) (List.mem_cons_self _ _)
        have hk' : k0 = d.id := by simpa using hk
        rw [hk'] at hwf0
        have hd0 : d0 = d := Option.some.inj (hwf0.symm.trans hd)
        subst hd0
        unfold availInsert
        rw [if_pos hk]
        simp only [mapTotal]
        ring
      · unfold availInsert
        rw [if_neg hk]
        unfold mapTotal
        rw [ih (fun e he => hwf e (List.mem_cons_of_mem _ he)) d hd q]
        ring

/-- Insertion preserves availability-map well-formedness. -/
theorem availMapWF_insert (catalog : List Dish) :
    ∀ (m : AvailMap), availMapWF catalog m →
    ∀ (d : Dish), findDish catalog d.id = some d → ∀ q,
    availMapWF catalog (availInsert m d q) := by
  intro m
  induction m with
  | nil =>
      intro _ d hd q e he
      simp [availInsert] at he
      rw [he]
      exact hd
  | cons e0 rest ih =>
      intro hwf d hd q e he
      obtain ⟨k0, d0, q0⟩ := e0
      by_cases hk : (k0 == d.id) = true
      · unfold availInsert at he
        rw [if_pos hk] at he
        rcases List.mem_cons.1 he with rfl | he
        · have hk' : k0 = d.id := by simpa using hk
          rw [hk']
          exact hd
        · exact hwf e (List.mem_cons_of_mem _ he)
      · unfold availInsert at he
        rw [if_neg hk] at he
        rcases List.mem_cons.1 he with rfl | he
        · exact hwf (k0, d0, q0) (List.mem_cons_self _ _)
        · exact ih (fun x hx => hwf x (List.mem_cons_of_mem _ hx)) d hd q
            e he

/-- One map-building step preserves well-formedness. -/
theorem availMapWF_step (catalog : List Dish) (m : AvailMap)
    (hwf : availMapWF catalog m) (it : OrderItem) :
    availMapWF catalog (acceptedMapStep catalog m it) := by
  unfold acceptedMapStep
  cases hd : findDish catalog it.dishId with
  | none => exact hwf
  | some d =>
      dsimp only
      by_cases hacc : it.status = ItemStatus.accepted
      · rw [if_pos hacc]
        have hid : d.id = it.dishId := by
          have := List.find?_some hd
          simpa using this
        exact availMapWF_insert catalog m hwf d (by rwa [hid]) it.quantity
      · rw [if_neg hacc]
        exact hwf

/-- Folding the map-building step over the order items accumulates exactly
the resolver-priced total of the accepted items. -/
theorem mapTotal_fold (catalog : List Dish) (t : Int) :
    ∀ (items : List OrderItem) (m0 : AvailMap), availMapWF catalog m0 →
    mapTotal t (List.foldl (acceptedMapStep catalog) m0 items) =
      mapTotal t m0 + acceptedResolvedTotal catalog t items := by
  intro items
  induction items with
  | nil =>
      intro m0 _
      simp [acceptedResolvedTotal]
  | cons it rest ih =>
      intro m0 hwf
      rw [List.foldl_cons]
      rw [ih (acceptedMapStep catalog m0 it)
        (availMapWF_step catalog m0 hwf it)]
      have hstep : mapTotal t (acceptedMapStep catalog m0 it) =
          mapTotal t m0 +
            (if it.status = ItemStatus.accepted then
              match findDish catalog it.dishId with
              | some d => it.quantity * resolvePriceNonzero d t
              | none => 0
            else 0) := by
        unfold acceptedMapStep
        cases hd : findDish catalog it.dishId with
        | none =>
            dsimp only
            by_cases hacc : it.status = ItemStatus.accepted <;>
              simp [hacc]
        | some d =>
            dsimp only
            by_cases hacc : it.status = ItemStatus.accepted
            · rw [if_pos hacc, if_pos hacc]
              have hid : d.id = it.dishId := by
                have := List.find?_some hd
                simpa using this
              rw [mapTotal_availInsert catalog t m0 hwf d (by rwa [hid])
                it.quantity]
              rw [priceToUse_eq_resolvePriceNonzero]
            · rw [if_neg hacc, if_neg hacc]
              simp
      rw [hstep]
      simp only [acceptedResolvedTotal]
      rw [Nat.add_assoc]

/-- C7: whenever `splitBill` succeeds (a valid full partition into N ≥ 2
portions), the sum of the persisted sub-bill totals equals the sum over
the original accepted order items of quantity × the Pricing-Resolver
price at the split time. -/
theorem C7_split_preserves_total (catalog : List Dish) (t : Int)
    (o : Order) (splits : List SplitPortion) (gid userId : Nat)
    (bills : List Bill) (o' : Order)
    (h : splitBill catalog t o splits gid userId = (bills, .ok o')) :
    billsTotal bills = acceptedResolvedTotal catalog t o.items := by
  obtain ⟨-, -, hps, -⟩ :=
    splitBill_ok_inv catalog t o splits gid userId bills o' h
  have h1 := processSplits_total t o.totalAmount o.customerPhoneNumber
    gid userId splits (buildAcceptedMapFold catalog o.items) 0 bills []
    hps
  have h2 := mapTotal_fold catalog t o.items []
    (fun e he => absurd he (List.not_mem_nil e))
  unfold buildAcceptedMapFold at h1
  simp only [mapTotal] at h1 h2
  rw [Nat.add_zero] at h1
  rw [Nat.zero_add] at h2
  rw [h1, h2]

/-- The sub-bills of the fully draining sample split. -/
def billC7a : Bill :=
  { billedBy := 9, items := [{ dishId := 1, quantity := 2, price := 10 }],
    totalAmount := 20, isSplitBill := true,
    splitGroupIdentifier := some 42, originalOrderTotal := 28,
    customerName := "Split Customer 1" }

/-- Second sub-bill of the fully draining sample split. -/
def billC7b : Bill :=
  { billedBy := 9, items := [{ dishId := 2, quantity := 1, price := 5 }],
    totalAmount := 5, isSplitBill := true,
    splitGroupIdentifier := some 42, originalOrderTotal := 28,
    customerName := "Split Customer 2" }

/-- Witness for C7: splitting the sample order (2 × dishA at 10, 1 ×
dishB at special price 5) into its two dishes at time 1500 sums to 25 on
both sides. -/
theorem C7_split_preserves_total_witness :
    billsTotal [billC7a, billC7b] =
      acceptedResolvedTotal sampleCatalog 1500 sampleOrder.items :=
  C7_split_preserves_total sampleCatalog 1500 sampleOrder
    [{ customerName := none, items := [{ dishId := 1, quantity := 2 }] },
     { customerName := none, items := [{ dishId := 2, quantity := 1 }] }]
    42 9 [billC7a, billC7b]
    { sampleOrder with isBilled := true,
                       orderStatus := OrderStatus.completed }
    rfl

end RMS
